import Mathlib

/-!
Verification of the session and framing engine of `TransportNodeBLE.js`
(node BLE transport): the process-wide transports cache (Registry),
`open` by id, MTU negotiation (`inferMTU`), the reconnect workaround in
`open`, error-driven force-disconnects, `close`, discovery filtering in
`listen`, and the static `disconnect`.

Device identifiers and transport handles are modelled as `Nat`; byte
buffers delivered on the notify characteristic are `List Nat` (one `Nat`
per byte, `readUInt8 k` becomes `get? k`).
-/

namespace TransportNodeBLE

/-- Errors surfaced by the transport.  `DisconnectedDevice` is the
`@ledgerhq/errors` class thrown by `open` on an unknown id; a failed MTU
negotiation surfaces as `NegotiationFailed`. -/
inductive TransportError where
  | DisconnectedDevice
  | NegotiationFailed
deriving DecidableEq, Repr

abbrev DeviceId := Nat

/-- The module-level `transportsCache` object: a finite map from device id
to the live transport, modelled as an association list whose keys are
unique (JS object semantics: one value per key). -/
abbrev Registry := List (DeviceId × Nat)

/-- Lookup `transportsCache[id]`. -/
def regGet (reg : Registry) (id : DeviceId) : Option Nat :=
  (reg.find? fun p => p.1 == id).map Prod.snd

/-- The `delete transportsCache[transport.id]` performed by the
`onDisconnect` handler. -/
def regRemove (id : DeviceId) (reg : Registry) : Registry :=
  reg.filter fun p => !(p.1 == id)

/-- The assignment `transportsCache[transport.id] = transport` performed by
a successful `open` from a descriptor: JS object assignment replaces any
previous binding of the key. -/
def regPut (id : DeviceId) (t : Nat) (reg : Registry) : Registry :=
  (id, t) :: regRemove id reg

/-- The string branch of `open(deviceOrId)`: return the cached transport if
present, otherwise throw `DisconnectedDevice`.  The second component counts
link-stack operations performed by this branch (connect / discover /
subscribe calls); the string branch performs none. -/
def openById (reg : Registry) (id : DeviceId) : Except TransportError Nat × Nat :=
  match regGet reg id with
  | some t => (Except.ok t, 0)
  | none => (Except.error TransportError.DisconnectedDevice, 0)

/-! ## MTU negotiation (`inferMTU`)

The code waits for the first notify buffer whose byte 0 is `0x08`, reads
its byte 5, adds 3 to form `mtu`, and, when `mtu > 23`, stores
`mtu - 3` as the new `mtuSize` (initial value 20).  If no matching
buffer arrives the negotiation fails. -/

/-- The filter `buffer.readUInt8(0) === 0x08` on the notify stream. -/
def isMTUResponseFrame (b : List Nat) : Bool :=
  b.head? == some 8

/-- The `map(buffer => buffer.readUInt8(5))` applied to the first matching
notify buffer: the size byte announced by the peer. -/
def announcedSize (bufs : List (List Nat)) : Option Nat :=
  (bufs.find? isMTUResponseFrame).bind fun b => b.get? 5

/-- Core of `inferMTU`, as a function of the current `mtuSize` (20 at
construction) and the notify buffers observed during the handshake.
`mtu := announced + 3`; when `mtu > 23` the stored size becomes
`mtu - 3`, otherwise it is left unchanged; no matching buffer means the
negotiation failed. -/
def inferMTU (mtuSize : Nat) (bufs : List (List Nat)) : Except TransportError Nat :=
  match announcedSize bufs with
  | none => Except.error TransportError.NegotiationFailed
  | some a =>
      let mtu := a + 3
      if 23 < mtu then Except.ok (mtu - 3) else Except.ok mtuSize

/-! ## Registry lifecycle

The operations that mutate `transportsCache`: a successful `open` from a
descriptor stores the new transport under its id, the `onDisconnect`
handler deletes the id, and the static `disconnect(id)` severs the link of
a cached transport (removal then happens through its disconnect event) and
does nothing for an unknown id. -/

inductive RegistryOp where
  | openDesc (id : DeviceId) (t : Nat)
  | disconnectEvent (id : DeviceId)
  | staticDisconnect (id : DeviceId)

/-- The static `disconnect(id)`: `const transport = transportsCache[id];
if (transport) { transport.device.disconnect(...) }` — for a cached id the
device link is severed and the ensuing disconnect event removes the entry;
for an unknown id nothing happens and no error is raised. -/
def staticDisconnectStep (reg : Registry) (id : DeviceId) : Except TransportError Registry :=
  match regGet reg id with
  | some _ => Except.ok (regRemove id reg)
  | none => Except.ok reg

def applyOp (reg : Registry) : RegistryOp → Registry
  | RegistryOp.openDesc id t => regPut id t reg
  | RegistryOp.disconnectEvent id => regRemove id reg
  | RegistryOp.staticDisconnect id =>
      match staticDisconnectStep reg id with
      | Except.ok r => r
      | Except.error _ => reg

/-- All completed registry mutations from process start (empty cache). -/
def runOps (ops : List RegistryOp) : Registry :=
  ops.foldl applyOp []

/-! ## The transport object -/

/-- Per-session state relevant to the claims: `mtuSize` starts at the
class-field default 20, `notYetDisconnected` at `true`. -/
structure BluetoothTransport where
  id : DeviceId
  mtuSize : Nat := 20
  notYetDisconnected : Bool := true
deriving DecidableEq, Repr

/-- The constructor `new BluetoothTransport(device, ...)`. -/
def mkTransport (id : DeviceId) : BluetoothTransport :=
  { id := id }

/-! ## The `open` sequence with the reconnect workaround

`open(device, needsReconnect)` constructs a transport, runs `inferMTU`
once and times it.  In the `finally` block: a round trip under 500ms
clears `needsReconnect`; if it is still set, the local `disconnect`
helper is awaited — its body only registers
`device.once('disconnect', ...)` and returns `undefined`, so the await
resolves immediately and no disconnect primitive is ever invoked — and
then the fixed 1000ms settle delay is waited.  After the `finally`, when
`needsReconnect` is still set and negotiation succeeded, the whole
sequence is re-run once with `needsReconnect = false`; when negotiation
threw, the error propagates instead.  Each list entry is one run:
(measured negotiation round trip in ms, whether negotiation
succeeded).  `workaroundDisconnects` counts disconnect-primitive calls
made by the workaround branch (none in the source);
`workaroundListenerRegs` counts its `once('disconnect')` registrations. -/

structure OpenTrace where
  runs : Nat
  transportsCreated : Nat
  negotiations : Nat
  workaroundDisconnects : Nat
  workaroundListenerRegs : Nat
  settleDelays : List Nat
  succeeded : Bool
deriving DecidableEq, Repr

def openSeq (needsReconnect : Bool) : List (Nat × Bool) → OpenTrace
  | [] => ⟨0, 0, 0, 0, 0, [], false⟩
  | (elapsed, negOk) :: rest =>
      let nr := if elapsed < 500 then false else needsReconnect
      if negOk then
        if nr then
          let t := openSeq false rest
          ⟨1 + t.runs, 1 + t.transportsCreated, 1 + t.negotiations,
            t.workaroundDisconnects, 1 + t.workaroundListenerRegs,
            1000 :: t.settleDelays, t.succeeded⟩
        else ⟨1, 1, 1, 0, 0, [], true⟩
      else
        if nr then ⟨1, 1, 1, 0, 1, [1000], false⟩
        else ⟨1, 1, 1, 0, 0, [], false⟩

/-! ## Theorems -/

/-- Claim C1, counterexample: with the peer announcing 158 (the byte read
at the fixed offset 5 of the matching control frame), the negotiated
budget stored by `inferMTU` is 158, not 158 − 3 = 155: the code adds the
3-byte overhead to the read byte before subtracting it again. -/
theorem inferMTU_announced_158_gives_158 :
    inferMTU 20 [[8, 0, 0, 0, 0, 158]] = Except.ok 158 ∧
    ¬ inferMTU 20 [[8, 0, 0, 0, 0, 158]] = Except.ok 155 := by
  constructor
  · rfl
  · intro h
    have h2 : (Except.ok (158 : Nat) : Except TransportError Nat) = Except.ok 155 := h
    injection h2 with h3
    exact absurd h3 (by decide)

/-- Claim C1, amended: whenever the peer announces size `a` (the byte at
the fixed offset of the matching control frame), the negotiated packet
budget equals `a` itself when `a` exceeds the default 20, and stays at the
default 20 otherwise; in particular an announced 158 yields 158. -/
theorem inferMTU_budget_eq_announced (bufs : List (List Nat)) (a : Nat)
    (h : announcedSize bufs = some a) :
    inferMTU 20 bufs = Except.ok (if 20 < a then a else 20) := by
  unfold inferMTU
  rw [h]
  show (if 23 < a + 3 then Except.ok (a + 3 - 3) else Except.ok 20 : Except TransportError Nat) =
    Except.ok (if 20 < a then a else 20)
  by_cases h2 : 20 < a
  · have h3 : 23 < a + 3 := by omega
    rw [if_pos h3, if_pos h2, Nat.add_sub_cancel]
  · have h3 : ¬ 23 < a + 3 := by omega
    rw [if_neg h3, if_neg h2]

/-- Witness for `inferMTU_budget_eq_announced` at an announced size of 158. -/
theorem inferMTU_budget_eq_announced_witness :
    inferMTU 20 [[8, 0, 0, 0, 0, 158]] = Except.ok (if 20 < 158 then 158 else 20) :=
  inferMTU_budget_eq_announced [[8, 0, 0, 0, 0, 158]] 158 rfl

/-- Keys of `regRemove id reg` never include `id`. -/
theorem regGet_regRemove (reg : Registry) (id : DeviceId) :
    regGet (regRemove id reg) id = none := by
  unfold regGet regRemove
  have h : (reg.filter fun p => !(p.1 == id)).find? (fun p => p.1 == id) = none := by
    rw [List.find?_eq_none]
    intro x hx
    have hmem := List.mem_filter.mp hx
    have hne := hmem.2
    simp only [Bool.not_eq_true'] at hne
    simp [hne]
  rw [h]
  rfl

/-- Claim C2: `open` on a device id returns the cached transport (with no
link-stack contact) when one is live, fails with `DisconnectedDevice` when
none is, and in particular fails after the disconnect handler has removed
the id from the cache. -/
theorem open_by_id_registry (reg : Registry) (id : DeviceId) :
    (∀ t, regGet reg id = some t → openById reg id = (Except.ok t, 0)) ∧
    (regGet reg id = none →
      openById reg id = (Except.error TransportError.DisconnectedDevice, 0)) ∧
    openById (regRemove id reg) id = (Except.error TransportError.DisconnectedDevice, 0) := by
  refine ⟨?_, ?_, ?_⟩
  · intro t h
    unfold openById
    rw [h]
  · intro h
    unfold openById
    rw [h]
  · unfold openById
    rw [regGet_regRemove]

/-- Witness for `open_by_id_registry`: a cache holding transport 3 under id
7 serves `open(7)` from the cache, and the empty cache rejects it. -/
theorem open_by_id_registry_witness :
    openById [(7, 3)] 7 = (Except.ok 3, 0) ∧
    openById [] 7 = (Except.error TransportError.DisconnectedDevice, 0) :=
  ⟨(open_by_id_registry [(7, 3)] 7).1 3 rfl, (open_by_id_registry [] 7).2.1 rfl⟩

/-- Helper: value of `inferMTU` when the peer announced size `a`. -/
theorem inferMTU_eq (bufs : List (List Nat)) (a m : Nat)
    (h : announcedSize bufs = some a) :
    inferMTU m bufs = if 23 < a + 3 then Except.ok (a + 3 - 3) else Except.ok m := by
  unfold inferMTU
  rw [h]

/-- Helper: value of `inferMTU` when no matching control frame arrived. -/
theorem inferMTU_eq_none (bufs : List (List Nat)) (m : Nat)
    (h : announcedSize bufs = none) :
    inferMTU m bufs = Except.error TransportError.NegotiationFailed := by
  unfold inferMTU
  rw [h]

/-- Helper: removing an id removes every pair carrying that key. -/
theorem not_mem_keys_regRemove (reg : Registry) (id : DeviceId) :
    id ∉ (regRemove id reg).map Prod.fst := by
  intro h
  obtain ⟨p, hp, hfst⟩ := List.mem_map.mp h
  have h2 := (List.mem_filter.mp hp).2
  rw [hfst] at h2
  simp at h2

/-- Helper: `regRemove` keeps registry keys unique. -/
theorem keys_nodup_regRemove (reg : Registry) (id : DeviceId)
    (h : (reg.map Prod.fst).Nodup) : ((regRemove id reg).map Prod.fst).Nodup := by
  have hsub : List.Sublist ((regRemove id reg).map Prod.fst) (reg.map Prod.fst) :=
    List.Sublist.map _ (List.filter_sublist _)
  exact List.Nodup.sublist hsub h

/-- Helper: every registry mutation keeps registry keys unique. -/
theorem keys_nodup_applyOp (reg : Registry) (op : RegistryOp)
    (h : (reg.map Prod.fst).Nodup) : ((applyOp reg op).map Prod.fst).Nodup := by
  cases op with
  | openDesc id t =>
      exact List.nodup_cons.mpr ⟨not_mem_keys_regRemove reg id, keys_nodup_regRemove reg id h⟩
  | disconnectEvent id =>
      exact keys_nodup_regRemove reg id h
  | staticDisconnect id =>
      cases hg : regGet reg id with
      | some t =>
          have h2 : applyOp reg (RegistryOp.staticDisconnect id) = regRemove id reg := by
            simp [applyOp, staticDisconnectStep, hg]
          rw [h2]
          exact keys_nodup_regRemove reg id h
      | none =>
          have h2 : applyOp reg (RegistryOp.staticDisconnect id) = reg := by
            simp [applyOp, staticDisconnectStep, hg]
          rw [h2]
          exact h

/-- Helper: folding any mutation sequence from a key-unique registry. -/
theorem keys_nodup_foldl (ops : List RegistryOp) :
    ∀ reg : Registry, (reg.map Prod.fst).Nodup →
      ((ops.foldl applyOp reg).map Prod.fst).Nodup := by
  induction ops with
  | nil => intro reg h; exact h
  | cons op rest ih => intro reg h; exact ih (applyOp reg op) (keys_nodup_applyOp reg op h)

/-- Claim C5: after any sequence of completed opens, disconnect events and
explicit disconnects, the process-wide cache maps each device id to at
most one live transport (its key list has no duplicates). -/
theorem registry_at_most_one_session (ops : List RegistryOp) :
    ((runOps ops).map Prod.fst).Nodup :=
  keys_nodup_foldl ops [] List.nodup_nil

/-- Claim C10: the static `disconnect(id)` on an id with no cached
transport raises no error and leaves the registry unchanged. -/
theorem static_disconnect_unknown_id_noop (reg : Registry) (id : DeviceId)
    (h : regGet reg id = none) :
    staticDisconnectStep reg id = Except.ok reg := by
  unfold staticDisconnectStep
  rw [h]

/-- Witness for `static_disconnect_unknown_id_noop` on the empty registry. -/
theorem static_disconnect_unknown_id_noop_witness :
    regGet [] 0 = none ∧ staticDisconnectStep [] 0 = Except.ok [] :=
  ⟨rfl, static_disconnect_unknown_id_noop [] 0 rfl⟩

/-- Claim C3, the code at the failing input: a successful negotiation with
a 700ms round trip (workaround armed, second run at 100ms) re-runs the
open sequence once after the 1000ms settle delay, but performs zero
additional disconnects — the workaround branch only registers one
`once('disconnect')` listener and never invokes a disconnect primitive,
contradicting the code's own comment that a `disconnect()` is done after
the first pairing. -/
theorem reconnect_workaround_no_disconnect :
    openSeq true [(700, true), (100, true)] = ⟨2, 2, 2, 0, 1, [1000], true⟩ := by
  decide

/-- Claim C6: the packet budget is 20 when a transport is constructed,
never drops below 20 whatever the peer announces, and the open sequence
performs exactly one negotiation per transport it creates (so each
transport's budget is updated at most once). -/
theorem packet_budget_invariant :
    (∀ i, (mkTransport i).mtuSize = 20) ∧
    (∀ (bufs : List (List Nat)) (r : Nat), inferMTU 20 bufs = Except.ok r → 20 ≤ r) ∧
    (∀ (nr : Bool) (atts : List (Nat × Bool)),
      (openSeq nr atts).negotiations = (openSeq nr atts).transportsCreated) := by
  refine ⟨fun i => rfl, ?_, ?_⟩
  · intro bufs r h
    cases ha : announcedSize bufs with
    | none =>
        have h2 := (inferMTU_eq_none bufs 20 ha).symm.trans h
        injection h2
    | some a =>
        have h2 := (inferMTU_eq bufs a 20 ha).symm.trans h
        by_cases h4 : 23 < a + 3
        · rw [if_pos h4] at h2
          injection h2 with h3
          omega
        · rw [if_neg h4] at h2
          injection h2 with h3
          omega
  · intro nr atts
    induction atts generalizing nr with
    | nil => rfl
    | cons att rest ih =>
        obtain ⟨elapsed, negOk⟩ := att
        show (openSeq nr ((elapsed, negOk) :: rest)).negotiations =
          (openSeq nr ((elapsed, negOk) :: rest)).transportsCreated
        unfold openSeq
        by_cases h : elapsed < 500
        · rw [if_pos h]
          cases negOk <;> cases nr <;> simp
        · rw [if_neg h]
          cases negOk <;> cases nr <;> simp [ih false]

/-- Witness for `packet_budget_invariant` at announced size 158. -/
theorem packet_budget_invariant_witness :
    (mkTransport 5).mtuSize = 20 ∧ 20 ≤ 158 :=
  ⟨packet_budget_invariant.1 5,
    packet_budget_invariant.2.1 [[8, 0, 0, 0, 0, 158]] 158 rfl⟩

/-! ## Error-driven force-disconnects

`exchange` severs the link in its catch branch only while
`notYetDisconnected` still holds; the disconnect event that the severing
triggers runs the `onDisconnect` handler, which clears the flag.  The
catch branch inside `inferMTU` severs the link unconditionally.  Both
rethrow the caught error.  In a session's lifetime the one-shot
negotiation runs first (on the fresh transport), exchanges after it. -/

structure ErrorState where
  notYetDisconnected : Bool
  linkDisconnects : Nat
deriving DecidableEq, Repr

/-- The fresh transport: `notYetDisconnected = true`, link intact. -/
def initialErrorState : ErrorState := ⟨true, 0⟩

/-- Catch branch of `exchange`: guarded link severing plus the ensuing
disconnect event clearing the flag. -/
def exchangeErrorStep (s : ErrorState) : ErrorState :=
  if s.notYetDisconnected then ⟨false, s.linkDisconnects + 1⟩ else s

/-- Catch branch of `exchange` including the rethrow of the caught error. -/
def exchangeCatch (e : TransportError) (s : ErrorState) : TransportError × ErrorState :=
  (e, exchangeErrorStep s)

/-- Catch branch of `inferMTU`: unconditional link severing (the ensuing
disconnect event clears the flag) before the rethrow. -/
def inferMTUErrorStep (s : ErrorState) : ErrorState :=
  ⟨false, s.linkDisconnects + 1⟩

/-- Catch branch of `inferMTU` including the rethrow of the caught error. -/
def inferMTUCatch (e : TransportError) (s : ErrorState) : TransportError × ErrorState :=
  (e, inferMTUErrorStep s)

/-- A session's cascade of internal errors: the one-shot negotiation may
fail, after which any number `n` of exchanges may fail in turn. -/
def sessionErrorTrace (negErr : Bool) (n : Nat) : ErrorState :=
  exchangeErrorStep^[n]
    (if negErr then inferMTUErrorStep initialErrorState else initialErrorState)

/-- Helper: once the flag is down, further exchange errors change nothing. -/
theorem exchangeErrorStep_fixed (c k : Nat) :
    exchangeErrorStep^[k] ⟨false, c⟩ = ⟨false, c⟩ :=
  Function.iterate_fixed rfl k

/-- Claim C4: every error inside an exchange or inside MTU negotiation is
propagated to the caller unchanged, and across any cascade of such errors
on one session the link is force-disconnected exactly once — never more. -/
theorem error_disconnect_once (negErr : Bool) (n : Nat) :
    (sessionErrorTrace negErr n).linkDisconnects ≤ 1 ∧
    ((negErr = true ∨ 0 < n) → (sessionErrorTrace negErr n).linkDisconnects = 1) ∧
    (∀ (e : TransportError) (s : ErrorState),
      (exchangeCatch e s).1 = e ∧ (inferMTUCatch e s).1 = e) := by
  have key : (negErr = true ∨ 0 < n) → sessionErrorTrace negErr n = ⟨false, 1⟩ := by
    intro hor
    cases negErr with
    | true =>
        show exchangeErrorStep^[n] (inferMTUErrorStep initialErrorState) = ⟨false, 1⟩
        exact exchangeErrorStep_fixed 1 n
    | false =>
        cases n with
        | zero =>
            rcases hor with h | h
            · exact absurd h (by decide)
            · exact absurd h (by decide)
        | succ k =>
            show exchangeErrorStep^[k + 1] initialErrorState = ⟨false, 1⟩
            rw [Function.iterate_succ_apply]
            exact exchangeErrorStep_fixed 1 k
  refine ⟨?_, fun hor => by rw [key hor], fun e s => ⟨rfl, rfl⟩⟩
  by_cases hor : negErr = true ∨ 0 < n
  · rw [key hor]
  · have h1 : negErr = false := by
      cases negErr
      · rfl
      · exact absurd (Or.inl rfl) hor
    have h2 : n = 0 := by
      cases n with
      | zero => rfl
      | succ k => exact absurd (Or.inr (Nat.succ_pos k)) hor
    rw [h1, h2]
    exact Nat.zero_le 1

/-- Witness for `error_disconnect_once`: two cascading exchange errors on
one session still yield a single link disconnect. -/
theorem error_disconnect_once_witness :
    (sessionErrorTrace false 2).linkDisconnects = 1 :=
  (error_disconnect_once false 2).2.1 (Or.inr (by decide))

/-! ## `close` -/

/-- Observable session state for `close`: whether an exchange is in
flight (`exchangeBusyPromise` present) and whether the link is up. -/
structure SessionChannels where
  exchangeBusy : Bool
  connected : Bool
deriving DecidableEq, Repr

/-- The `close()` body: `if (this.exchangeBusyPromise) await
this.exchangeBusyPromise;` and nothing else.  Modelled from the spec for
the busy promise itself (`exchangeBusyPromise` is owned by the
hw-transport base class, outside this package): it resolves exactly when
the in-flight exchange finishes, so after the await no exchange is in
flight.  No link operation is performed. -/
def close (s : SessionChannels) : SessionChannels :=
  if s.exchangeBusy then ⟨false, s.connected⟩ else s

/-- Claim C8: `close` returns only once no exchange is in flight, and the
link's connection state is exactly what it was before the call. -/
theorem close_waits_and_keeps_link (s : SessionChannels) :
    (close s).connected = s.connected ∧ (close s).exchangeBusy = false := by
  cases hb : s.exchangeBusy <;> simp [close, hb]

/-! ## Discovery (`listen`) -/

/-- A discovered peripheral: identifier and advertised local name (`none`
models a missing `advertisement.localName`). -/
structure Peripheral where
  uuid : Nat
  localName : Option String
deriving DecidableEq, Repr

/-- The discovery filter `peripheral.advertisement.localName !== "unknown"
&& peripheral.advertisement.localName`: a missing or empty name is falsy
and rejected, and so is the literal name "unknown". -/
def advertisedNameOk (p : Peripheral) : Bool :=
  match p.localName with
  | none => false
  | some n => !(n == "unknown") && !(n == "")

/-- State of one `listen` subscription: the `discoveredDevices` keys seen
so far and the add events emitted, in order. -/
structure ListenState where
  discoveredDevices : List Nat
  emitted : List Peripheral
deriving DecidableEq, Repr

/-- One `discover` callback (`detectingDevices`): a named device not yet
in `discoveredDevices` is recorded and emitted as an add event; repeats
and unnamed or "unknown"-named devices are dropped. -/
def detectingDevices (st : ListenState) (p : Peripheral) : ListenState :=
  if advertisedNameOk p then
    if p.uuid ∈ st.discoveredDevices then st
    else ⟨p.uuid :: st.discoveredDevices, st.emitted ++ [p]⟩
  else st

/-- A whole `listen` subscription over the stream of discovered
peripherals (the scan is started with `allowDuplicates = true`, so the
link stack may report a device repeatedly). -/
def listen (ps : List Peripheral) : ListenState :=
  ps.foldl detectingDevices ⟨[], []⟩

/-- Invariant carried through a `listen` subscription: emitted ids are
unique, every emitted device passed the name filter, and every emitted id
has been recorded in `discoveredDevices`. -/
def listenInv (st : ListenState) : Prop :=
  (st.emitted.map Peripheral.uuid).Nodup ∧
  (∀ p ∈ st.emitted, advertisedNameOk p = true) ∧
  (∀ p ∈ st.emitted, p.uuid ∈ st.discoveredDevices)

/-- Helper: one discovery callback preserves the listen invariant. -/
theorem listenInv_step (st : ListenState) (p : Peripheral) (h : listenInv st) :
    listenInv (detectingDevices st p) := by
  obtain ⟨h1, h2, h3⟩ := h
  unfold detectingDevices
  by_cases hname : advertisedNameOk p = true
  · rw [if_pos hname]
    by_cases hmem : p.uuid ∈ st.discoveredDevices
    · rw [if_pos hmem]
      exact ⟨h1, h2, h3⟩
    · rw [if_neg hmem]
      refine ⟨?_, ?_, ?_⟩
      · rw [List.map_append]
        refine List.nodup_append.mpr ⟨h1, List.nodup_singleton _, ?_⟩
        intro a ha hb
        obtain ⟨q, hq, hqa⟩ := List.mem_map.mp ha
        have hb2 : a = p.uuid := by simpa using hb
        exact hmem (hb2 ▸ hqa ▸ h3 q hq)
      · intro q hq
        rcases List.mem_append.mp hq with hq1 | hq2
        · exact h2 q hq1
        · rw [List.mem_singleton.mp hq2]
          exact hname
      · intro q hq
        rcases List.mem_append.mp hq with hq1 | hq2
        · exact List.mem_cons_of_mem _ (h3 q hq1)
        · rw [List.mem_singleton.mp hq2]
          exact List.mem_cons_self _ _
  · rw [if_neg hname]
    exact ⟨h1, h2, h3⟩

/-- Helper: the listen invariant holds along the whole fold. -/
theorem listenInv_foldl (ps : List Peripheral) :
    ∀ st : ListenState, listenInv st → listenInv (ps.foldl detectingDevices st) := by
  induction ps with
  | nil => intro st h; exact h
  | cons p rest ih => intro st h; exact ih (detectingDevices st p) (listenInv_step st p h)

/-- Claim C9: every add event emitted by `listen` carries a device whose
advertised name passed the filter (present, non-empty and not the literal
"unknown"), and no device id is emitted twice however often the link
stack reports it. -/
theorem listen_filters_and_dedups (ps : List Peripheral) :
    ((listen ps).emitted.map Peripheral.uuid).Nodup ∧
    ∀ p ∈ (listen ps).emitted, advertisedNameOk p = true := by
  have h : listenInv (listen ps) := by
    refine listenInv_foldl ps ⟨[], []⟩ ⟨List.nodup_nil, ?_, ?_⟩
    · intro p hp
      cases hp
    · intro p hp
      cases hp
  exact ⟨h.1, h.2.1⟩

/-- Witness for `listen_filters_and_dedups`: a device named "Nano" that
the stack reports twice is emitted once, and it passed the filter. -/
theorem listen_filters_and_dedups_witness :
    advertisedNameOk (Peripheral.mk 1 (some "Nano")) = true :=
  (listen_filters_and_dedups [Peripheral.mk 1 (some "Nano"), Peripheral.mk 1 (some "Nano")]).2
    (Peripheral.mk 1 (some "Nano")) (by decide)

/-! ## Exchange serialization -/

/-- Frames of consecutive callers tagged with the caller's arrival index:
caller `i`'s frames in order, then caller `i + 1`'s, and so on. -/
def tagFrames : Nat → List (List Nat) → List (Nat × Nat)
  | _, [] => []
  | i, frames :: rest => (frames.map fun f => (i, f)) ++ tagFrames (i + 1) rest

/-- Modelled from the spec: the exchange lock (`exchangeAtomicImpl` and
`exchangeBusyPromise`) lives in the hw-transport base class, which is not
part of this package's sources.  Per the spec, concurrent `exchange`
callers (and the internal negotiation) are queued and run strictly one
after another in arrival order, so the write stream carries caller 0's
frames, then caller 1's, and so on; `calls` lists each caller's frames in
arrival order and the trace tags each written frame with its caller. -/
def serializedWriteTrace (calls : List (List Nat)) : List (Nat × Nat) :=
  tagFrames 0 calls

/-- Helper: every tagged frame carries an index at least the start index. -/
theorem tagFrames_mem_le (cs : List (List Nat)) :
    ∀ (i : Nat) (q : Nat × Nat), q ∈ tagFrames i cs → i ≤ q.1 := by
  induction cs with
  | nil =>
      intro i q hq
      simp [tagFrames] at hq
  | cons c rest ih =>
      intro i q hq
      rcases List.mem_append.mp hq with h1 | h2
      · obtain ⟨f, hf, hq2⟩ := List.mem_map.mp h1
        rw [← hq2]
      · exact Nat.le_trans (Nat.le_succ i) (ih (i + 1) q h2)

/-- Helper: tagged traces are sorted by caller index. -/
theorem tagFrames_pairwise (cs : List (List Nat)) :
    ∀ i : Nat, List.Pairwise (fun a b : Nat × Nat => a.1 ≤ b.1) (tagFrames i cs) := by
  induction cs with
  | nil => intro i; exact List.Pairwise.nil
  | cons c rest ih =>
      intro i
      refine List.pairwise_append.mpr ⟨?_, ih (i + 1), ?_⟩
      · clear ih
        induction c with
        | nil => exact List.Pairwise.nil
        | cons x xs ihx =>
            rw [List.map_cons]
            refine List.Pairwise.cons ?_ ihx
            intro b hb
            obtain ⟨f, hf, hb2⟩ := List.mem_map.mp hb
            rw [← hb2]
      · intro a ha b hb
        obtain ⟨f, hf, ha2⟩ := List.mem_map.mp ha
        have h2 := tagFrames_mem_le rest (i + 1) b hb
        rw [← ha2]
        exact Nat.le_trans (Nat.le_succ i) h2

/-- Helper: no frame of a later caller carries an earlier caller index. -/
theorem filter_tagFrames_nil (cs : List (List Nat)) (k j : Nat) (h : j < k) :
    (tagFrames k cs).filter (fun q => q.1 == j) = [] := by
  refine List.filter_eq_nil_iff.mpr ?_
  intro q hq
  have h2 := tagFrames_mem_le cs k q hq
  intro h3
  have h4 : q.1 = j := by simpa using h3
  omega

/-- Helper: a caller's own tag selects all of its frames. -/
theorem filter_map_tag_self (c : List Nat) (k : Nat) :
    ((c.map fun f => (k, f)).filter fun q => q.1 == k) = c.map fun f => (k, f) := by
  refine List.filter_eq_self.mpr ?_
  intro q hq
  obtain ⟨f, hf, h2⟩ := List.mem_map.mp hq
  rw [← h2]
  simp

/-- Helper: another caller's tag selects none of a caller's frames. -/
theorem filter_map_tag_ne (c : List Nat) (k j : Nat) (h : ¬ k = j) :
    ((c.map fun f => (k, f)).filter fun q => q.1 == j) = [] := by
  refine List.filter_eq_nil_iff.mpr ?_
  intro q hq
  obtain ⟨f, hf, h2⟩ := List.mem_map.mp hq
  rw [← h2]
  simpa using h

/-- Helper: selecting caller `k + i`'s frames from the trace started at
index `k` recovers exactly that caller's frame list. -/
theorem tagFrames_filter_get (cs : List (List Nat)) :
    ∀ (k i : Nat) (h : i < cs.length),
      (((tagFrames k cs).filter fun q => q.1 == k + i).map Prod.snd) = cs.get ⟨i, h⟩ := by
  induction cs with
  | nil => intro k i h; exact absurd h (Nat.not_lt_zero i)
  | cons c rest ih =>
      intro k i h
      cases i with
      | zero =>
          have e1 : tagFrames k (c :: rest)
              = (c.map fun f => (k, f)) ++ tagFrames (k + 1) rest := rfl
          rw [e1, List.filter_append, Nat.add_zero]
          rw [filter_map_tag_self c k]
          rw [filter_tagFrames_nil rest (k + 1) k (Nat.lt_succ_self k)]
          rw [List.append_nil, List.map_map]
          simp
      | succ j =>
          have e1 : tagFrames k (c :: rest)
              = (c.map fun f => (k, f)) ++ tagFrames (k + 1) rest := rfl
          rw [e1, List.filter_append]
          rw [filter_map_tag_ne c k (k + (j + 1)) (by omega)]
          rw [List.nil_append]
          have e2 : k + (j + 1) = (k + 1) + j := by omega
          rw [e2]
          exact ih (k + 1) j (Nat.lt_of_succ_lt_succ h)

/-- Claim C7: under the queued exchange lock, the write-stream trace is
fully attributable to one caller at a time in arrival order (caller
indices never decrease along the trace), and the frames attributed to
caller `i` are exactly caller `i`'s frames in their original order. -/
theorem exchange_serialized_fifo (calls : List (List Nat)) :
    List.Pairwise (fun a b : Nat × Nat => a.1 ≤ b.1) (serializedWriteTrace calls) ∧
    ∀ (i : Nat) (h : i < calls.length),
      (((serializedWriteTrace calls).filter fun q => q.1 == i).map Prod.snd)
        = calls.get ⟨i, h⟩ := by
  constructor
  · exact tagFrames_pairwise calls 0
  · intro i h
    have h2 := tagFrames_filter_get calls 0 i h
    rw [Nat.zero_add] at h2
    exact h2

/-- Witness for `exchange_serialized_fifo`: two queued callers writing
frames `[1, 2]` and `[3]`; the second caller's frames are exactly `[3]`. -/
theorem exchange_serialized_fifo_witness :
    List.Pairwise (fun a b : Nat × Nat => a.1 ≤ b.1) (serializedWriteTrace [[1, 2], [3]]) ∧
    (((serializedWriteTrace [[1, 2], [3]]).filter fun q => q.1 == 1).map Prod.snd) = [3] :=
  ⟨(exchange_serialized_fifo [[1, 2], [3]]).1,
    (exchange_serialized_fifo [[1, 2], [3]]).2 1 (by decide)⟩

end TransportNodeBLE
